import Mathlib

/-
Verification of the change-to-event translation layer of the nomad state
store: the `eventsFromChanges` batch assembler and the `eventFromChange`
entity classifier, together with the immutable `MsgTypeEvents` write-kind
registry.

The embedding mirrors the Go source.  Fallible results (`(T, bool)` in Go,
with the `false` branch returning a zero value that callers never read)
become `Option`.  Entity snapshot structures carry exactly the fields the
classifier reads.  Go's `interface{}` snapshot slots become
`Option Snapshot`, where `Snapshot` is a tagged union over the entity kinds
plus a `raw` variant standing for any other dynamic value; a Go type
assertion becomes a match on the corresponding constructor.  The change
records come from the external storage-engine library; they are modelled
per the data model: `before`/`after` snapshot slots plus a deletion flag
reported by `Deleted()`.
-/

namespace NomadStream

/-- Access token entity (`structs.ACLToken`): the fields the classifier
reads, `AccessorID` as the event key, plus the secret credential field. -/
structure ACLToken where
  accessorID : String
  secretID : String
  deriving DecidableEq, Repr

/-- Access policy entity (`structs.ACLPolicy`): keyed by `Name`. -/
structure ACLPolicy where
  name : String
  deriving DecidableEq, Repr

/-- Auth method entity (`structs.AuthMethod`): keyed by `Name`. -/
structure AuthMethod where
  name : String
  deriving DecidableEq, Repr

/-- Job entity (`structs.Job`): keyed by `ID`, scoped by `Namespace`. -/
structure Job where
  id : String
  namespace' : String
  deriving DecidableEq, Repr

/-- Evaluation entity (`structs.Evaluation`). -/
structure Evaluation where
  id : String
  namespace' : String
  jobID : String
  deploymentID : String
  deriving DecidableEq, Repr

/-- Allocation entity (`structs.Allocation`), with the embedded full job
specification that the classifier strips from the event payload. -/
structure Allocation where
  id : String
  namespace' : String
  jobID : String
  deploymentID : String
  job : Option Job
  deriving DecidableEq, Repr

/-- Node entity (`structs.Node`): `ID` plus the secret credential field
that sanitization clears. -/
structure Node where
  id : String
  secretID : String
  deriving DecidableEq, Repr

/-- Deployment entity (`structs.Deployment`). -/
structure Deployment where
  id : String
  namespace' : String
  jobID : String
  deriving DecidableEq, Repr

/-- Service registration entity (`structs.ServiceRegistration`). -/
structure ServiceRegistration where
  id : String
  namespace' : String
  jobID : String
  serviceName : String
  deriving DecidableEq, Repr

/-- Modelled from the spec: `structs.Node.Sanitize` is defined outside the
given sources; the Sanitizer produces a shallow copy of the node snapshot
with the secret/credential-bearing field cleared. -/
def Node.sanitize (n : Node) : Node :=
  { n with secretID := "" }

/-- Modelled from the spec: `structs.Allocation.Copy` is defined outside
the given sources; it is a pure, side-effect-free deep copy, hence the
identity on the snapshot value. -/
def Allocation.copy (a : Allocation) : Allocation :=
  a

/-- Subscription topics (`structs.Topic*` constants, defined outside the
given sources): one coarse channel per entity kind. -/
inductive Topic where
  | aclToken
  | aclPolicy
  | authMethod
  | evaluation
  | allocation
  | job
  | node
  | deployment
  | service
  deriving DecidableEq, Repr

/-- Event payload: the tagged union of per-entity payload wrappers
(`structs.ACLTokenEvent`, `structs.NodeStreamEvent`, ...), one variant per
entity kind. -/
inductive Payload where
  | aclTokenEvent (token : ACLToken)
  | aclPolicyEvent (policy : ACLPolicy)
  | authMethodEvent (method : AuthMethod)
  | evaluationEvent (eval : Evaluation)
  | allocationEvent (alloc : Allocation)
  | jobEvent (job : Job)
  | nodeStreamEvent (node : Node)
  | deploymentEvent (deployment : Deployment)
  | serviceRegistrationEvent (service : ServiceRegistration)
  deriving DecidableEq, Repr

/-- Modelled from the spec: `structs.NewACLTokenEvent` is defined outside
the given sources; it constructs the token payload wrapper consumed by the
classifier. -/
def NewACLTokenEvent (token : ACLToken) : Payload :=
  Payload.aclTokenEvent token

/-- One domain event (`structs.Event`).  Go zero values stand in for the
fields a construction site leaves unset: empty type tag, empty namespace,
no filter keys, index 0. -/
structure Event where
  topic : Topic
  type : String := ""
  key : String := ""
  namespace' : String := ""
  filterKeys : List String := []
  index : Nat := 0
  payload : Payload
  deriving DecidableEq, Repr

/-- A typed snapshot held in a change record's `Before`/`After` slot
(`interface{}` in Go).  `raw` stands for a dynamic value of any other
type, so a failing type assertion is a match on the wrong constructor. -/
inductive Snapshot where
  | aclToken (t : ACLToken)
  | aclPolicy (p : ACLPolicy)
  | authMethod (m : AuthMethod)
  | evaluation (e : Evaluation)
  | allocation (a : Allocation)
  | job (j : Job)
  | node (n : Node)
  | deployment (d : Deployment)
  | serviceRegistration (s : ServiceRegistration)
  | raw (typeName : String)
  deriving DecidableEq, Repr

/-- One row mutation (`memdb.Change`, from the external storage-engine
library, modelled per the data model): prior and new typed snapshots and
the deletion flag reported by `change.Deleted()`. -/
structure Change where
  table : String
  before : Option Snapshot := none
  after : Option Snapshot := none
  deleted : Bool := false
  deriving DecidableEq, Repr

/-- Write-operation kinds (`structs.MessageType` constants): the 25 kinds
keyed by the registry, plus `unmappedMsgType n` standing for any of the
remaining message types the registry does not map. -/
inductive MessageType where
  | NodeRegisterRequestType
  | NodeDeregisterRequestType
  | UpsertNodeEventsType
  | EvalUpdateRequestType
  | AllocClientUpdateRequestType
  | JobRegisterRequestType
  | AllocUpdateRequestType
  | NodeUpdateStatusRequestType
  | JobDeregisterRequestType
  | JobBatchDeregisterRequestType
  | AllocUpdateDesiredTransitionRequestType
  | NodeUpdateEligibilityRequestType
  | NodeUpdateDrainRequestType
  | BatchNodeUpdateDrainRequestType
  | DeploymentStatusUpdateRequestType
  | DeploymentPromoteRequestType
  | DeploymentAllocHealthRequestType
  | ApplyPlanResultsRequestType
  | ACLTokenDeleteRequestType
  | ACLTokenUpsertRequestType
  | ACLPolicyDeleteRequestType
  | ACLPolicyUpsertRequestType
  | ServiceRegistrationUpsertRequestType
  | ServiceRegistrationDeleteByIDRequestType
  | ServiceRegistrationDeleteByNodeIDRequestType
  | unmappedMsgType (n : Nat)
  deriving DecidableEq, Repr

/-- The change set of one committed transaction (`state.Changes`): the
commit index, the write kind, and the ordered row mutations. -/
structure Changes where
  index : Nat
  msgType : MessageType
  changes : List Change
  deriving DecidableEq, Repr

/-- The ordered event batch of one transaction (`structs.Events`). -/
structure Events where
  index : Nat
  events : List Event
  deriving DecidableEq, Repr

/-- The write-kind registry `MsgTypeEvents`: the static map from message
type to human-readable event-type tag, as a total function into `Option`
(`none` = key absent).  The tag strings (`structs.Type*` constants) are
defined outside the given sources and modelled from the spec as opaque
human-readable names. -/
def MsgTypeEvents : MessageType → Option String
  | .NodeRegisterRequestType => some "NodeRegistration"
  | .NodeDeregisterRequestType => some "NodeDeregistration"
  | .UpsertNodeEventsType => some "NodeEvent"
  | .EvalUpdateRequestType => some "EvaluationUpdated"
  | .AllocClientUpdateRequestType => some "AllocationUpdated"
  | .JobRegisterRequestType => some "JobRegistered"
  | .AllocUpdateRequestType => some "AllocationUpdated"
  | .NodeUpdateStatusRequestType => some "NodeEvent"
  | .JobDeregisterRequestType => some "JobDeregistered"
  | .JobBatchDeregisterRequestType => some "JobBatchDeregistered"
  | .AllocUpdateDesiredTransitionRequestType => some "AllocationUpdateDesiredStatus"
  | .NodeUpdateEligibilityRequestType => some "NodeDrain"
  | .NodeUpdateDrainRequestType => some "NodeDrain"
  | .BatchNodeUpdateDrainRequestType => some "NodeDrain"
  | .DeploymentStatusUpdateRequestType => some "DeploymentStatusUpdate"
  | .DeploymentPromoteRequestType => some "DeploymentPromotion"
  | .DeploymentAllocHealthRequestType => some "DeploymentAllocHealth"
  | .ApplyPlanResultsRequestType => some "PlanResult"
  | .ACLTokenDeleteRequestType => some "ACLTokenDeleted"
  | .ACLTokenUpsertRequestType => some "ACLTokenUpserted"
  | .ACLPolicyDeleteRequestType => some "ACLPolicyDeleted"
  | .ACLPolicyUpsertRequestType => some "ACLPolicyUpserted"
  | .ServiceRegistrationUpsertRequestType => some "ServiceRegistration"
  | .ServiceRegistrationDeleteByIDRequestType => some "ServiceDeregistration"
  | .ServiceRegistrationDeleteByNodeIDRequestType => some "ServiceDeregistration"
  | .unmappedMsgType _ => none

/-- Modelled from the spec: the `TableServiceRegistrations` table-name
constant is defined outside the given sources (the state schema). -/
def TableServiceRegistrations : String :=
  "service_registrations"

/-- The entity classifier `eventFromChange`: dispatches first on
`change.Deleted()`, then on `change.table`, turning one change record into
zero or one events.  `(structs.Event{}, false)` in Go becomes `none`. -/
def eventFromChange (change : Change) : Option Event :=
  if change.deleted then
    if change.table = "acl_token" then
      match change.before with
      | some (Snapshot.aclToken before) =>
        some { topic := Topic.aclToken
               key := before.accessorID
               payload := NewACLTokenEvent before }
      | _ => none
    else if change.table = "acl_policy" then
      match change.before with
      | some (Snapshot.aclPolicy before) =>
        some { topic := Topic.aclPolicy
               key := before.name
               payload := Payload.aclPolicyEvent before }
      | _ => none
    else if change.table = "nodes" then
      match change.before with
      | some (Snapshot.node before) =>
        some { topic := Topic.node
               key := (Node.sanitize before).id
               payload := Payload.nodeStreamEvent (Node.sanitize before) }
      | _ => none
    else if change.table = TableServiceRegistrations then
      match change.before with
      | some (Snapshot.serviceRegistration before) =>
        some { topic := Topic.service
               key := before.id
               filterKeys := [before.jobID, before.serviceName]
               namespace' := before.namespace'
               payload := Payload.serviceRegistrationEvent before }
      | _ => none
    else
      none
  else
    if change.table = "acl_token" then
      match change.after with
      | some (Snapshot.aclToken after) =>
        some { topic := Topic.aclToken
               key := after.accessorID
               payload := NewACLTokenEvent after }
      | _ => none
    else if change.table = "acl_policy" then
      match change.after with
      | some (Snapshot.aclPolicy after) =>
        some { topic := Topic.aclPolicy
               key := after.name
               payload := Payload.aclPolicyEvent after }
      | _ => none
    else if change.table = "auth_method" then
      match change.after with
      | some (Snapshot.authMethod after) =>
        some { topic := Topic.authMethod
               key := after.name
               payload := Payload.authMethodEvent after }
      | _ => none
    else if change.table = "evals" then
      match change.after with
      | some (Snapshot.evaluation after) =>
        some { topic := Topic.evaluation
               key := after.id
               filterKeys := [after.jobID, after.deploymentID]
               namespace' := after.namespace'
               payload := Payload.evaluationEvent after }
      | _ => none
    else if change.table = "allocs" then
      match change.after with
      | some (Snapshot.allocation after) =>
        let alloc := Allocation.copy after
        let filterKeys := [alloc.jobID, alloc.deploymentID]
        -- remove job info to help keep size of alloc event down
        let alloc := { alloc with job := none }
        some { topic := Topic.allocation
               key := after.id
               filterKeys := filterKeys
               namespace' := after.namespace'
               payload := Payload.allocationEvent alloc }
      | _ => none
    else if change.table = "jobs" then
      match change.after with
      | some (Snapshot.job after) =>
        some { topic := Topic.job
               key := after.id
               namespace' := after.namespace'
               payload := Payload.jobEvent after }
      | _ => none
    else if change.table = "nodes" then
      match change.after with
      | some (Snapshot.node after) =>
        some { topic := Topic.node
               key := (Node.sanitize after).id
               payload := Payload.nodeStreamEvent (Node.sanitize after) }
      | _ => none
    else if change.table = "deployment" then
      match change.after with
      | some (Snapshot.deployment after) =>
        some { topic := Topic.deployment
               key := after.id
               namespace' := after.namespace'
               filterKeys := [after.jobID]
               payload := Payload.deploymentEvent after }
      | _ => none
    else if change.table = TableServiceRegistrations then
      match change.after with
      | some (Snapshot.serviceRegistration after) =>
        some { topic := Topic.service
               key := after.id
               filterKeys := [after.jobID, after.serviceName]
               namespace' := after.namespace'
               payload := Payload.serviceRegistrationEvent after }
      | _ => none
    else
      none

/-- The batch assembler `eventsFromChanges`: resolves the registry tag (a
missing key yields the nil batch, `none` here), then folds over the
changes in commit order, stamping each classified event with the tag and
the commit index.  The unused read-transaction handle is dropped. -/
def eventsFromChanges (changes : Changes) : Option Events :=
  match MsgTypeEvents changes.msgType with
  | none => none
  | some eventType =>
    let events := changes.changes.foldl
      (fun acc change =>
        match eventFromChange change with
        | some event => acc ++ [{ event with type := eventType, index := changes.index }]
        | none => acc)
      []
    some { index := changes.index, events := events }

/-- The tables the classifier dispatches on (both paths together). -/
def classifierTables : List String :=
  ["acl_token", "acl_policy", "auth_method", "evals", "allocs", "jobs",
   "nodes", "deployment", TableServiceRegistrations]

/-- The snapshot variant each dispatched table's handler expects:
`matchesTable t s` holds exactly when the type assertion in table `t`'s
handler succeeds on the dynamic value `s`.  No snapshot matches a table
outside the dispatch set, and a `raw` value matches no table. -/
def matchesTable (table : String) : Snapshot → Prop
  | .aclToken _ => table = "acl_token"
  | .aclPolicy _ => table = "acl_policy"
  | .authMethod _ => table = "auth_method"
  | .evaluation _ => table = "evals"
  | .allocation _ => table = "allocs"
  | .job _ => table = "jobs"
  | .node _ => table = "nodes"
  | .deployment _ => table = "deployment"
  | .serviceRegistration _ => table = TableServiceRegistrations
  | .raw _ => False

-- The assembler's fold over the change list, written exactly as the Go
-- loop, appends the stamped classification of each change in order; it
-- therefore equals a `filterMap`.
theorem foldl_classify_eq_filterMap (t : String) (i : Nat) :
    ∀ (l : List Change) (acc : List Event),
      l.foldl
        (fun acc change =>
          match eventFromChange change with
          | some event => acc ++ [{ event with type := t, index := i }]
          | none => acc)
        acc
      = acc ++ l.filterMap (fun c => (eventFromChange c).map
          (fun e => { e with type := t, index := i })) := by
  intro l
  induction l with
  | nil => intro acc; simp
  | cons hd tl ih =>
    intro acc
    cases h : eventFromChange hd with
    | none => simp [List.foldl_cons, List.filterMap_cons, h, ih]
    | some e => simp [List.foldl_cons, List.filterMap_cons, h, ih]

-- Characterization of the batch assembler on a mapped write kind.
theorem eventsFromChanges_eq_filterMap (cs : Changes) (t : String)
    (h : MsgTypeEvents cs.msgType = some t) :
    eventsFromChanges cs
      = some { index := cs.index,
               events := cs.changes.filterMap (fun c => (eventFromChange c).map
                 (fun e => { e with type := t, index := cs.index })) } := by
  simp [eventsFromChanges, h, foldl_classify_eq_filterMap]

-- Restricting a change list to its classifiable members does not alter
-- the stamped classification stream.
theorem filterMap_stamp_filter (st : Event → Event) :
    ∀ l : List Change,
      (l.filter (fun c => (eventFromChange c).isSome)).filterMap
          (fun c => (eventFromChange c).map st)
        = l.filterMap (fun c => (eventFromChange c).map st) := by
  intro l
  induction l with
  | nil => rfl
  | cons hd tl ih =>
    cases h : eventFromChange hd with
    | none => simp [List.filter_cons, List.filterMap_cons, h, ih]
    | some e => simp [List.filter_cons, List.filterMap_cons, h, ih]

-- A change whose table the classifier does not dispatch on produces no
-- event, on either path.
theorem eventFromChange_none_of_table_notMem (c : Change)
    (h : c.table ∉ classifierTables) :
    eventFromChange c = none := by
  simp [classifierTables, TableServiceRegistrations] at h
  obtain ⟨h1, h2, h3, h4, h5, h6, h7, h8, h9⟩ := h
  cases hd : c.deleted <;>
    simp [eventFromChange, hd, h1, h2, h3, h4, h5, h6, h7, h8, h9,
      TableServiceRegistrations]

/-- C1: for every ChangeSet whose write kind is mapped by the registry,
the batch returned by `eventsFromChanges` is the stamped classification of
an order-preserving sublist of the ChangeSet's changes: each event comes
from classifying one change, events appear in the original change order,
and no change contributes more than one event. -/
theorem translate_events_subsequence (cs : Changes) (evs : Events)
    (h : eventsFromChanges cs = some evs) :
    ∃ (t : String) (sel : List Change),
      MsgTypeEvents cs.msgType = some t ∧
      sel.Sublist cs.changes ∧
      (∀ c ∈ sel, (eventFromChange c).isSome) ∧
      evs.events = sel.filterMap (fun c => (eventFromChange c).map
        (fun e => { e with type := t, index := cs.index })) := by
  cases ht : MsgTypeEvents cs.msgType with
  | none => simp [eventsFromChanges, ht] at h
  | some t =>
    rw [eventsFromChanges_eq_filterMap cs t ht] at h
    injection h with h
    subst h
    refine ⟨t, cs.changes.filter (fun c => (eventFromChange c).isSome),
      rfl, List.filter_sublist _, ?_, ?_⟩
    · intro c hc
      exact (List.mem_filter.mp hc).2
    · exact (filterMap_stamp_filter _ _).symm

/-- C1 witness: a concrete two-change transaction under a mapped write
kind, one change classifiable and one not. -/
theorem translate_events_subsequence_witness :
    ∃ (t : String) (sel : List Change),
      MsgTypeEvents (Changes.mk 7 MessageType.ACLTokenUpsertRequestType
          [⟨"acl_token", none, some (Snapshot.aclToken ⟨"acc1", "sec1"⟩), false⟩,
           ⟨"bogus", none, none, false⟩]).msgType = some t ∧
      sel.Sublist (Changes.mk 7 MessageType.ACLTokenUpsertRequestType
          [⟨"acl_token", none, some (Snapshot.aclToken ⟨"acc1", "sec1"⟩), false⟩,
           ⟨"bogus", none, none, false⟩]).changes ∧
      (∀ c ∈ sel, (eventFromChange c).isSome) ∧
      (Events.mk 7
          [⟨Topic.aclToken, "ACLTokenUpserted", "acc1", "", [], 7,
            Payload.aclTokenEvent ⟨"acc1", "sec1"⟩⟩]).events
        = sel.filterMap (fun c => (eventFromChange c).map
            (fun e => { e with
                          type := t,
                          index := (Changes.mk 7 MessageType.ACLTokenUpsertRequestType
                              [⟨"acl_token", none,
                                some (Snapshot.aclToken ⟨"acc1", "sec1"⟩), false⟩,
                               ⟨"bogus", none, none, false⟩]).index })) :=
  translate_events_subsequence _ _ (by decide)

/-- C2: `eventsFromChanges` returns the no-batch sentinel (`none`) exactly
when the write kind is absent from the registry, regardless of the
changes; when the kind is mapped and no change classifies, it still
returns a batch, carrying zero events. -/
theorem translate_unmapped_no_batch (cs : Changes) :
    (eventsFromChanges cs = none ↔ MsgTypeEvents cs.msgType = none) ∧
    (∀ t, MsgTypeEvents cs.msgType = some t →
      (∀ c ∈ cs.changes, eventFromChange c = none) →
        eventsFromChanges cs = some (Events.mk cs.index [])) := by
  constructor
  · cases ht : MsgTypeEvents cs.msgType <;>
      simp [eventsFromChanges, ht]
  · intro t ht hall
    rw [eventsFromChanges_eq_filterMap cs t ht]
    have hnil : cs.changes.filterMap (fun c => (eventFromChange c).map
        (fun e => { e with type := t, index := cs.index })) = [] := by
      rw [List.filterMap_eq_nil_iff]
      intro c hc
      simp [hall c hc]
    rw [hnil]

/-- C2 witness: a mapped write kind over a single unclassifiable change
yields a batch with zero events. -/
theorem translate_unmapped_no_batch_witness :
    eventsFromChanges
        (Changes.mk 3 MessageType.NodeRegisterRequestType
          [⟨"bogus", none, none, false⟩])
      = some (Events.mk 3 []) :=
  (translate_unmapped_no_batch _).2 "NodeRegistration" rfl (by decide)

/-- C3: every event of a produced batch is stamped with the ChangeSet's
index and with the registry tag resolved for the ChangeSet's write kind,
and the batch's own index equals the ChangeSet's index. -/
theorem translate_stamps_index_and_type (cs : Changes) (evs : Events)
    (h : eventsFromChanges cs = some evs) :
    evs.index = cs.index ∧
      ∀ e ∈ evs.events,
        e.index = cs.index ∧ MsgTypeEvents cs.msgType = some e.type := by
  cases ht : MsgTypeEvents cs.msgType with
  | none => simp [eventsFromChanges, ht] at h
  | some t =>
    rw [eventsFromChanges_eq_filterMap cs t ht] at h
    injection h with h
    subst h
    refine ⟨rfl, ?_⟩
    intro e he
    rw [List.mem_filterMap] at he
    obtain ⟨c, _, hce⟩ := he
    cases hfc : eventFromChange c with
    | none => rw [hfc] at hce; cases hce
    | some e0 =>
      rw [hfc] at hce
      injection hce with hce
      subst hce
      exact ⟨rfl, rfl⟩

/-- C3 witness: a concrete one-change transaction whose single event
carries the transaction index and the registry tag. -/
theorem translate_stamps_index_and_type_witness :
    (Events.mk 11
        [⟨Topic.aclPolicy, "ACLPolicyDeleted", "p1", "", [], 11,
          Payload.aclPolicyEvent ⟨"p1"⟩⟩]).index
      = (Changes.mk 11 MessageType.ACLPolicyDeleteRequestType
          [⟨"acl_policy", some (Snapshot.aclPolicy ⟨"p1"⟩), none, true⟩]).index ∧
    ∀ e ∈ (Events.mk 11
        [⟨Topic.aclPolicy, "ACLPolicyDeleted", "p1", "", [], 11,
          Payload.aclPolicyEvent ⟨"p1"⟩⟩]).events,
      e.index = (Changes.mk 11 MessageType.ACLPolicyDeleteRequestType
          [⟨"acl_policy", some (Snapshot.aclPolicy ⟨"p1"⟩), none, true⟩]).index ∧
        MsgTypeEvents (Changes.mk 11 MessageType.ACLPolicyDeleteRequestType
            [⟨"acl_policy", some (Snapshot.aclPolicy ⟨"p1"⟩), none, true⟩]).msgType
          = some e.type :=
  translate_stamps_index_and_type _ _ (by decide)

/-- C4: every node change — on the delete path reading `before` and on the
upsert path reading `after` — yields an event with topic Node, key the
node's id, empty namespace, no filter keys, and a payload carrying the
sanitized snapshot, whose secret field is cleared. -/
theorem node_change_redacted (n : Node) (other : Option Snapshot) :
    eventFromChange ⟨"nodes", some (Snapshot.node n), other, true⟩
      = some ⟨Topic.node, "", n.id, "", [], 0,
              Payload.nodeStreamEvent ⟨n.id, ""⟩⟩ ∧
    eventFromChange ⟨"nodes", other, some (Snapshot.node n), false⟩
      = some ⟨Topic.node, "", n.id, "", [], 0,
              Payload.nodeStreamEvent ⟨n.id, ""⟩⟩ :=
  ⟨rfl, rfl⟩

/-- C5: an upsert change on the allocation table yields an event with
topic Allocation, key the allocation id, the allocation's namespace,
filter keys [job id, deployment id], and a payload allocation whose
embedded job field is cleared, even when the input's job was populated. -/
theorem alloc_upsert_shrunk (a : Allocation) (other : Option Snapshot) :
    eventFromChange ⟨"allocs", other, some (Snapshot.allocation a), false⟩
      = some ⟨Topic.allocation, "", a.id, a.namespace',
              [a.jobID, a.deploymentID], 0,
              Payload.allocationEvent ⟨a.id, a.namespace', a.jobID,
                                       a.deploymentID, none⟩⟩ :=
  rfl

/-- C6: a change whose authoritative snapshot — `before` on the delete
path, `after` on the upsert path — is absent or not of the variant its
table's handler expects (which in particular covers every table outside
the dispatch set) classifies to no event; and inserting such a change
anywhere in a ChangeSet leaves the translated batch exactly as it is
without it — the other changes are still processed. -/
theorem mismatch_silently_dropped (bad : Change)
    (h : ∀ s, (if bad.deleted then bad.before else bad.after) = some s →
      ¬ matchesTable bad.table s) :
    eventFromChange bad = none ∧
    ∀ (i : Nat) (k : MessageType) (pre post : List Change),
      eventsFromChanges (Changes.mk i k (pre ++ bad :: post))
        = eventsFromChanges (Changes.mk i k (pre ++ post)) := by
  have hnone : eventFromChange bad = none := by
    obtain ⟨tb, bf, af, dl⟩ := bad
    cases dl with
    | true =>
      cases bf with
      | none => simp [eventFromChange, ite_self]
      | some s =>
        cases s with
        | aclToken t =>
          have hne : tb ≠ "acl_token" := h _ rfl
          simp [eventFromChange, hne, ite_self]
        | aclPolicy p =>
          have hne : tb ≠ "acl_policy" := h _ rfl
          simp [eventFromChange, hne, ite_self]
        | node n =>
          have hne : tb ≠ "nodes" := h _ rfl
          simp [eventFromChange, hne, ite_self]
        | serviceRegistration sr =>
          have hne : tb ≠ TableServiceRegistrations := h _ rfl
          simp [eventFromChange, hne, ite_self]
        | authMethod m => simp [eventFromChange, ite_self]
        | evaluation ev => simp [eventFromChange, ite_self]
        | allocation a => simp [eventFromChange, ite_self]
        | job j => simp [eventFromChange, ite_self]
        | deployment d => simp [eventFromChange, ite_self]
        | raw tn => simp [eventFromChange, ite_self]
    | false =>
      cases af with
      | none => simp [eventFromChange, ite_self]
      | some s =>
        cases s with
        | aclToken t =>
          have hne : tb ≠ "acl_token" := h _ rfl
          simp [eventFromChange, hne, ite_self]
        | aclPolicy p =>
          have hne : tb ≠ "acl_policy" := h _ rfl
          simp [eventFromChange, hne, ite_self]
        | authMethod m =>
          have hne : tb ≠ "auth_method" := h _ rfl
          simp [eventFromChange, hne, ite_self]
        | evaluation ev =>
          have hne : tb ≠ "evals" := h _ rfl
          simp [eventFromChange, hne, ite_self]
        | allocation a =>
          have hne : tb ≠ "allocs" := h _ rfl
          simp [eventFromChange, hne, ite_self]
        | job j =>
          have hne : tb ≠ "jobs" := h _ rfl
          simp [eventFromChange, hne, ite_self]
        | node n =>
          have hne : tb ≠ "nodes" := h _ rfl
          simp [eventFromChange, hne, ite_self]
        | deployment d =>
          have hne : tb ≠ "deployment" := h _ rfl
          simp [eventFromChange, hne, ite_self]
        | serviceRegistration sr =>
          have hne : tb ≠ TableServiceRegistrations := h _ rfl
          simp [eventFromChange, hne, ite_self]
        | raw tn => simp [eventFromChange, ite_self]
  refine ⟨hnone, ?_⟩
  intro i k pre post
  cases hk : MsgTypeEvents k with
  | none => simp [eventsFromChanges, hk]
  | some t =>
    rw [eventsFromChanges_eq_filterMap _ t hk,
      eventsFromChanges_eq_filterMap _ t hk]
    simp [List.filterMap_append, List.filterMap_cons, hnone]

/-- C6 witness: a jobs change carrying a wrong-typed snapshot is dropped
while the valid change beside it still yields its event. -/
theorem mismatch_silently_dropped_witness :
    eventFromChange ⟨"jobs", none, some (Snapshot.raw "str"), false⟩ = none ∧
    eventsFromChanges
        (Changes.mk 1 MessageType.JobRegisterRequestType
          [⟨"jobs", none, some (Snapshot.job ⟨"j1", "ns"⟩), false⟩,
           ⟨"jobs", none, some (Snapshot.raw "str"), false⟩])
      = eventsFromChanges
          (Changes.mk 1 MessageType.JobRegisterRequestType
            [⟨"jobs", none, some (Snapshot.job ⟨"j1", "ns"⟩), false⟩]) := by
  have h := mismatch_silently_dropped
    ⟨"jobs", none, some (Snapshot.raw "str"), false⟩
    (by intro s hs; cases hs; exact not_false)
  exact ⟨h.1,
    h.2 1 MessageType.JobRegisterRequestType
      [⟨"jobs", none, some (Snapshot.job ⟨"j1", "ns"⟩), false⟩] []⟩

/-- C7: access-token and access-policy changes follow the same derivation
rule on the delete path (reading `before`) and the upsert path (reading
`after`): topic AclToken with the accessor id as key for tokens, topic
AclPolicy with the policy name as key for policies. -/
theorem token_policy_delete_upsert_symmetry (t : ACLToken) (p : ACLPolicy)
    (o1 o2 : Option Snapshot) :
    eventFromChange ⟨"acl_token", some (Snapshot.aclToken t), o1, true⟩
      = some ⟨Topic.aclToken, "", t.accessorID, "", [], 0,
              NewACLTokenEvent t⟩ ∧
    eventFromChange ⟨"acl_token", o1, some (Snapshot.aclToken t), false⟩
      = some ⟨Topic.aclToken, "", t.accessorID, "", [], 0,
              NewACLTokenEvent t⟩ ∧
    eventFromChange ⟨"acl_policy", some (Snapshot.aclPolicy p), o2, true⟩
      = some ⟨Topic.aclPolicy, "", p.name, "", [], 0,
              Payload.aclPolicyEvent p⟩ ∧
    eventFromChange ⟨"acl_policy", o2, some (Snapshot.aclPolicy p), false⟩
      = some ⟨Topic.aclPolicy, "", p.name, "", [], 0,
              Payload.aclPolicyEvent p⟩ :=
  ⟨rfl, rfl, rfl, rfl⟩

/-- C8: the delete path classifies only the access-token, access-policy,
node, and service-registration tables; a deleted change on any other table
— evaluation, allocation, job, deployment, auth-method included — produces
no event. -/
theorem delete_path_only_four_tables (c : Change) (h1 : c.deleted = true)
    (h2 : c.table ∉ ["acl_token", "acl_policy", "nodes", TableServiceRegistrations]) :
    eventFromChange c = none := by
  simp [TableServiceRegistrations] at h2
  obtain ⟨g1, g2, g3, g4⟩ := h2
  simp [eventFromChange, h1, g1, g2, g3, g4, TableServiceRegistrations]

/-- C8 witness: a deleted evaluation change produces no event. -/
theorem delete_path_only_four_tables_witness :
    eventFromChange
        ⟨"evals", some (Snapshot.evaluation ⟨"e", "ns", "j", "d"⟩), none, true⟩
      = none :=
  delete_path_only_four_tables _ rfl (by decide)

/-- C9: classification clears fields only on copies destined for the
payload: the allocation event's payload has its job cleared and the node
event's payload has its secret cleared, while the snapshots held by the
input change still carry the populated job and the original secret. -/
theorem classifier_copies_not_mutates (a : Allocation) (jb : Job) (n : Node)
    (s : String) (o1 o2 : Option Snapshot)
    (ha : a.job = some jb) (hn : n.secretID = s) :
    (∃ ev, eventFromChange ⟨"allocs", o1, some (Snapshot.allocation a), false⟩
        = some ev ∧
      ev.payload = Payload.allocationEvent { a with job := none }) ∧
    a.job = some jb ∧
    (∃ ev, eventFromChange ⟨"nodes", o2, some (Snapshot.node n), false⟩
        = some ev ∧
      ev.payload = Payload.nodeStreamEvent { n with secretID := "" }) ∧
    n.secretID = s :=
  ⟨⟨_, rfl, rfl⟩, ha, ⟨_, rfl, rfl⟩, hn⟩

/-- C9 witness: a populated allocation and a node with a secret; the
payload copies are cleared while the inputs keep their fields. -/
theorem classifier_copies_not_mutates_witness :
    (∃ ev, eventFromChange
        ⟨"allocs", none,
         some (Snapshot.allocation ⟨"a1", "ns", "web", "d1", some ⟨"web", "ns"⟩⟩),
         false⟩
        = some ev ∧
      ev.payload = Payload.allocationEvent ⟨"a1", "ns", "web", "d1", none⟩) ∧
    (Allocation.mk "a1" "ns" "web" "d1" (some ⟨"web", "ns"⟩)).job
      = some ⟨"web", "ns"⟩ ∧
    (∃ ev, eventFromChange
        ⟨"nodes", none, some (Snapshot.node ⟨"n1", "topsecret"⟩), false⟩
        = some ev ∧
      ev.payload = Payload.nodeStreamEvent ⟨"n1", ""⟩) ∧
    (Node.mk "n1" "topsecret").secretID = "topsecret" :=
  classifier_copies_not_mutates ⟨"a1", "ns", "web", "d1", some ⟨"web", "ns"⟩⟩
    ⟨"web", "ns"⟩ ⟨"n1", "topsecret"⟩ "topsecret" none none rfl rfl

/-- C10: service-registration changes follow the same derivation rule on
the delete path (reading `before`) and the upsert path (reading `after`):
topic Service, key the registration id, its namespace, and filter keys
[job id, service name]. -/
theorem service_registration_symmetry (s : ServiceRegistration)
    (o1 o2 : Option Snapshot) :
    eventFromChange
        ⟨TableServiceRegistrations, some (Snapshot.serviceRegistration s), o1, true⟩
      = some ⟨Topic.service, "", s.id, s.namespace',
              [s.jobID, s.serviceName], 0,
              Payload.serviceRegistrationEvent s⟩ ∧
    eventFromChange
        ⟨TableServiceRegistrations, o2, some (Snapshot.serviceRegistration s), false⟩
      = some ⟨Topic.service, "", s.id, s.namespace',
              [s.jobID, s.serviceName], 0,
              Payload.serviceRegistrationEvent s⟩ :=
  ⟨rfl, rfl⟩

end NomadStream
